import Mathlib

set_option maxRecDepth 16384

/-!
Verification of the `lineedit` single-line terminal editor.

The Python module `lineedit/__init__.py` is embedded shallowly:

* Python strings become `List Char`; a `fd.read(1)` call on the input
  stream becomes `read1` on a `List Char`, returning `none` for the empty
  string produced at end of file and `some c` for a one-character read.
* The two `while` loops of `esc2str` can run forever (reading "" at EOF
  keeps the loop condition true), so all stream-consuming functions take a
  fuel argument and return `none` when the fuel runs out; `none` at every
  fuel is the embedding of nontermination.
* A raised Python exception is an `Except.error` carrying a `PyError`.
* Python `None` is `Option.none`; in particular the code sets
  `UNKNOWN = None`, which is embedded as `UNKNOWN : Option Nat := none`.
-/

namespace LineEdit

/-- Symbolic command codes, exactly the integers assigned at the top of the
module.  `UNKNOWN = None` in the source, hence `none` here. -/
def UNKNOWN : Option Nat := none

def UP : Nat := 1

def DOWN : Nat := 2

def RIGHT : Nat := 3

def LEFT : Nat := 4

def HOME : Nat := 5

def END : Nat := 6

def INSERT : Nat := 7

def DELETE : Nat := 8

def PAGE_UP : Nat := 9

def PAGE_DOWN : Nat := 10

def CTRL_LEFT : Nat := 11

def CTRL_RIGHT : Nat := 12

/-- The `SEQ` dict mapping escape-sequence bodies to command codes. -/
def SEQ : List (List Char × Nat) :=
  [ ("A".toList, UP),
    ("B".toList, DOWN),
    ("C".toList, RIGHT),
    ("D".toList, LEFT),
    ("H".toList, HOME),
    ("F".toList, END),
    ("2~".toList, INSERT),
    ("3~".toList, DELETE),
    ("5~".toList, PAGE_UP),
    ("6~".toList, PAGE_DOWN),
    ("1;5C".toList, CTRL_RIGHT),
    ("1;5D".toList, CTRL_LEFT) ]

/-- The escape character, `ESC = "\x1b"` in the source. -/
def ESC : Char := '\x1b'

def ESC_SAVE_CURSOR : List Char := "\x1b[s".toList

def ESC_RESTORE_CURSOR : List Char := "\x1b[u".toList

/-- `CS_PARAMETER = "0123456789:;<=>?"`. -/
def CS_PARAMETER : List Char := "0123456789:;<=>?".toList

/-- `CS_INTERMEDIATE` is the 14 characters with code points 0x22 to 0x2F:
double quote, hash, dollar, percent, ampersand, apostrophe, parentheses,
asterisk, plus, comma, minus, dot, slash — written as a range of code
points to keep the quote characters out of a literal. -/
def CS_INTERMEDIATE : List Char := (List.range 14).map (fun i => Char.ofNat (34 + i))

/-- `CS_FINAL` is the 63 characters with code points 0x40 (at sign) to
0x7E (tilde), exactly the characters listed in the source string. -/
def CS_FINAL : List Char := (List.range 63).map (fun i => Char.ofNat (64 + i))

/-- Exceptions that can escape the Python functions. -/
inductive PyError where
  /-- The statement raising the f-string "Malformed ESC Sequence ..."
  in `esc2str`, carrying the buffer accumulated so far.  (In Python 3
  raising a plain string actually surfaces as a `TypeError`, but either
  way an exception propagates to the caller.) -/
  | malformed (buf : List Char)
  /-- `ord("")` in the `edit` loop when `fd.read(1)` returned "". -/
  | typeError
deriving DecidableEq, Repr

/-- One `fd.read(1)` call: `none` is the empty string returned at EOF. -/
def read1 (input : List Char) : Option Char × List Char :=
  match input with
  | [] => (none, [])
  | c :: rest => (some c, rest)

/-- The characters of the string returned by one `read(1)` call. -/
def optToList : Option Char → List Char
  | none => []
  | some c => [c]

/-- Python `s.find(c)` for a one-character needle: the first index of `c`
in `s`, or -1 when absent. -/
def strFind : List Char → Char → Int
  | [], _ => -1
  | c :: rest, x =>
    if c = x then 0
    else if strFind rest x < 0 then -1 else strFind rest x + 1

/-- Python `s.find(next)` where `next` came from `read(1)`: searching for
the empty string (EOF read) succeeds at position 0. -/
def pyFind (s : List Char) (next : Option Char) : Int :=
  match next with
  | none => 0
  | some c => strFind s c

/-- Python `dict.get` on an association list with `List Char` keys. -/
def dictGet : List (List Char × Nat) → List Char → Option Nat
  | [], _ => none
  | (k, v) :: rest, key => if k = key then some v else dictGet rest key

/-- One of the two character-class `while` loops of `esc2str`: the current
lookahead `next` is tested against the class `cls`; while it is found the
loop appends it to `buf` and reads again.  Returns the buffer, the first
lookahead outside the class, and the rest of the stream; `none` when the
fuel runs out (the loop never exits on an EOF stream, since
`pyFind cls none = 0`). -/
def csLoop (cls : List Char) : Nat → List Char → Option Char → List Char →
    Option (List Char × Option Char × List Char)
  | 0, _, _, _ => none
  | fuel + 1, buf, next, input =>
    if pyFind cls next ≥ 0 then
      let r := read1 input
      csLoop cls fuel (buf ++ optToList next) r.1 r.2
    else some (buf, next, input)

/-- `esc2str(fd)`: parse the rest of an ESC sequence (after the ESC byte).
`ok none` embeds the Python `return None` taken when the byte after ESC is
not a left bracket; `ok (some buf)` is a completed sequence body;
`error` is the raise on a byte outside every class. -/
def esc2str (fuel : Nat) (input : List Char) :
    Option (Except PyError (Option (List Char)) × List Char) :=
  let r := read1 input
  if r.1 ≠ some '[' then some (.ok none, r.2)
  else
    let r1 := read1 r.2
    (csLoop CS_PARAMETER fuel [] r1.1 r1.2).bind (fun p1 =>
      (csLoop CS_INTERMEDIATE fuel p1.1 p1.2.1 p1.2.2).bind (fun p2 =>
        if pyFind CS_FINAL p2.2.1 ≥ 0 then
          some (.ok (some (p2.1 ++ optToList p2.2.1)), p2.2.2)
        else
          some (.error (.malformed p2.1), p2.2.2)))

/-- Python truthiness of `x or UNKNOWN` for `x : Optional[int]`:
`None` and `0` are falsy, so they yield `UNKNOWN` (which is `None`). -/
def pyOr (x : Option Nat) : Option Nat :=
  match x with
  | some v => if v = 0 then UNKNOWN else some v
  | none => UNKNOWN

/-- `parse_esc(fd) = SEQ.get(esc2str(fd)) or UNKNOWN`.  A `None` sequence
is not a key of `SEQ`, so it maps to `UNKNOWN`. -/
def parse_esc (fuel : Nat) (input : List Char) :
    Option (Except PyError (Option Nat) × List Char) :=
  (esc2str fuel input).map (fun r =>
    (r.1.map (fun seq => pyOr (seq.bind (dictGet SEQ))), r.2))

/-- The `Key` class: after `__init__`, `char` is either Python `None`
(outer `none`) or the string returned by `read(1)` (possibly the empty
string, inner `none`), and `cmd` is either Python `None` or a command
code. -/
structure Key where
  char : Option (Option Char)
  cmd : Option Nat
deriving DecidableEq, Repr

/-- `Key.__init__` together with the module-level `read(fd)`: read one
byte; a non-ESC byte becomes a literal-character key, ESC hands the
stream to `parse_esc`. -/
def read (fuel : Nat) (input : List Char) :
    Option (Except PyError Key × List Char) :=
  let r := read1 input
  if r.1 ≠ some ESC then some (.ok { char := some r.1, cmd := none }, r.2)
  else
    (parse_esc fuel r.2).map (fun pr =>
      (pr.1.map (fun cmd => { char := none, cmd := cmd }), pr.2))

/-! ## The Editor class -/

/-- The edit buffer: `pre` is the text before the cursor, `post` the text
at and after it. -/
structure EditState where
  pre : List Char
  post : List Char
deriving DecidableEq, Repr

def digitChar (d : Nat) : Char :=
  match d with
  | 0 => '0' | 1 => '1' | 2 => '2' | 3 => '3' | 4 => '4'
  | 5 => '5' | 6 => '6' | 7 => '7' | 8 => '8' | 9 => '9'
  | _ => '*'

def natToCharsAux : Nat → Nat → List Char → List Char
  | 0, _, acc => acc
  | fuel + 1, n, acc =>
    if n < 10 then digitChar (n % 10) :: acc
    else natToCharsAux fuel (n / 10) (digitChar (n % 10) :: acc)

/-- Decimal rendering of a natural number, as produced by the f-string
interpolation of `back` in `Editor.show`. -/
def natToChars (n : Nat) : List Char := natToCharsAux (n + 1) n []

/-- The cursor-left escape sequence emitted by the f-string
`"\x1b[" + back + "D"`. -/
def cursorLeft (n : Nat) : List Char :=
  ESC :: '[' :: (natToChars n ++ ['D'])

/-- `Editor.show(erase)`: the characters written to the terminal by one
call, in order of the `emit` calls: restore-cursor, `pre`, `post`,
`erase` spaces, and — only when `back = len(post) + erase` is positive —
the cursor-left-by-`back` sequence. -/
def showBuf (s : EditState) (erase : Nat) : List Char :=
  ESC_RESTORE_CURSOR ++ s.pre ++ s.post ++ List.replicate erase ' ' ++
    (if 0 < s.post.length + erase then cursorLeft (s.post.length + erase) else [])

/-- `Editor.__init__`: `self.maxlen = max or shutil.get_terminal_size().columns-1`.
`max` is falsy when it is `None` or `0`, and then the terminal-width
default is used. -/
def initMaxlen (max : Option Int) (columns : Int) : Int :=
  match max with
  | none => columns - 1
  | some m => if m = 0 then columns - 1 else m

/-- `Editor.handle_char(char)`: append to `pre` and redisplay, but only
when unbounded (`maxlen < 0`) or strictly below the bound.  The second
component lists the `erase` arguments of the `show` calls made. -/
def handle_char (maxlen : Int) (s : EditState) (c : Char) : EditState × List Nat :=
  if maxlen < 0 ∨ ((s.pre ++ s.post).length : Int) < maxlen then
    ({ s with pre := s.pre ++ [c] }, [0])
  else (s, [])

/-- `Editor.left`: move the last character of `pre` to the front of
`post`; nothing when `pre` is empty. -/
def left (s : EditState) : EditState :=
  if h : s.pre = [] then s
  else { pre := s.pre.dropLast, post := s.pre.getLast h :: s.post }

/-- `Editor.right`: move the first character of `post` to the end of
`pre`; nothing when `post` is empty. -/
def right (s : EditState) : EditState :=
  if h : s.post = [] then s
  else { pre := s.pre ++ [s.post.head h], post := s.post.drop 1 }

/-- `Editor.home`. -/
def home (s : EditState) : EditState :=
  { pre := [], post := s.pre ++ s.post }

/-- `Editor.end` (named `endKey` here because `end` is reserved). -/
def endKey (s : EditState) : EditState :=
  { pre := s.pre ++ s.post, post := [] }

/-- `Editor.delete`: drop the first character of `post` when there is
one; `show(1)` is called unconditionally. -/
def delete (s : EditState) : EditState × List Nat :=
  (if 0 < s.post.length then { s with post := s.post.drop 1 } else s, [1])

/-- `Editor.backspace`: drop the last character of `pre` when there is
one; `show(1)` is called unconditionally. -/
def backspace (s : EditState) : EditState × List Nat :=
  (if 0 < s.pre.length then { s with pre := s.pre.dropLast } else s, [1])

/-- `Editor.kill_post`: clear `post`, reporting its length as erased. -/
def kill_post (s : EditState) : EditState × List Nat :=
  ({ s with post := [] }, [s.post.length])

/-- A word constituent in the sense of the regex class backslash-w,
restricted to ASCII text: letters, digits and the underscore.  The
source's `re.finditer` on a `str` uses the Unicode-aware backslash-w,
which on code points below 128 is exactly this predicate but also counts
non-ASCII letters and digits; the Unicode category tables are outside
this embedding, so theorems that depend on where the boundaries fall
(C7) quantify only over ASCII buffers, where the two classes agree. -/
def isWordChar (c : Char) : Bool := c.isAlphanum || c = '_'

/-- Buffers on which the embedded word class agrees with the Unicode
backslash-w of the source: every character is ASCII. -/
def asciiOnly (l : List Char) : Prop := ∀ c ∈ l, c.toNat < 128

/-- Whether position `i` of `s` holds a word constituent; positions off
the end count as non-word. -/
def wordAt (s : List Char) (i : Nat) : Bool :=
  match s.get? i with
  | some c => isWordChar c
  | none => false

/-- Whether position `i` (between 0 and `s.length`) is a match of the
regex backslash-b: the word-ness changes there, with the outside of the
string counting as non-word. -/
def isBoundary (s : List Char) (i : Nat) : Bool :=
  (if i = 0 then false else wordAt s (i - 1)) != wordAt s i

/-- The start positions of `re.finditer(r"\b", s)`, in increasing
order. -/
def boundaries (s : List Char) : List Nat :=
  (List.range (s.length + 1)).filter (fun i => isBoundary s i)

/-- `boundaries[-2].start()`: the second-to-last boundary position (the
default 0 is never used at call sites, which guard on the length). -/
def secondLastBoundary (s : List Char) : Nat :=
  ((boundaries s).get? ((boundaries s).length - 2)).getD 0

/-- `Editor.delete_word`: when `pre` has more than one word boundary,
cut `pre` at the second-to-last boundary and report the cut length. -/
def delete_word (s : EditState) : EditState × List Nat :=
  let bs := boundaries s.pre
  if 1 < bs.length then
    let cut := secondLastBoundary s.pre
    ({ s with pre := s.pre.take cut }, [s.pre.length - cut])
  else (s, [])

/-- `Editor.word_left`: when `pre` has more than one word boundary, move
the suffix of `pre` from the second-to-last boundary onto `post`. -/
def word_left (s : EditState) : EditState × List Nat :=
  let bs := boundaries s.pre
  if 1 < bs.length then
    let cut := secondLastBoundary s.pre
    ({ pre := s.pre.take cut, post := s.pre.drop cut ++ s.post }, [0])
  else (s, [])

/-- `Editor.word_right`: when `post` has more than one word boundary,
move the prefix of `post` up to `boundaries[1]` onto `pre`. -/
def word_right (s : EditState) : EditState × List Nat :=
  let bs := boundaries s.post
  if 1 < bs.length then
    let cut := ((boundaries s.post).get? 1).getD 0
    ({ pre := s.pre ++ s.post.take cut, post := s.post.drop cut }, [0])
  else (s, [])

/-- The `while self.running` loop of `Editor.edit`: read a key, dispatch
it through `key_cmds` / `esc_cmds`, and loop.  `ok` carries the returned
`pre + post` when the `enter` handler stops the loop; `error` propagates
a decode exception or the `ord("")` TypeError on an EOF read; `none` is
running out of fuel. -/
def editLoop : Nat → Int → EditState → List Char →
    Option (Except PyError (List Char))
  | 0, _, _, _ => none
  | fuel + 1, maxlen, s, input =>
    match read (fuel + 1) input with
    | none => none
    | some (.error e, _) => some (.error e)
    | some (.ok key, rest) =>
      match key.char with
      | some chStr =>
        match chStr with
        | none => some (.error .typeError)
        | some ch =>
          if ch = '\n' then some (.ok (s.pre ++ s.post))
          else if ch = '\t' then editLoop fuel maxlen s rest
          else if ch = '\x7f' ∨ ch = '\x08' then
            editLoop fuel maxlen (backspace s).1 rest
          else if ch = '\x0b' then editLoop fuel maxlen (kill_post s).1 rest
          else if ch = '\x17' then editLoop fuel maxlen (delete_word s).1 rest
          else if 32 ≤ ch.toNat then
            editLoop fuel maxlen (handle_char maxlen s ch).1 rest
          else editLoop fuel maxlen s rest
      | none =>
        match key.cmd with
        | none => editLoop fuel maxlen s rest
        | some c =>
          if c = LEFT then editLoop fuel maxlen (left s) rest
          else if c = RIGHT then editLoop fuel maxlen (right s) rest
          else if c = HOME then editLoop fuel maxlen (home s) rest
          else if c = END then editLoop fuel maxlen (endKey s) rest
          else if c = DELETE then editLoop fuel maxlen (delete s).1 rest
          else if c = CTRL_LEFT then editLoop fuel maxlen (word_left s).1 rest
          else if c = CTRL_RIGHT then editLoop fuel maxlen (word_right s).1 rest
          else editLoop fuel maxlen s rest

/-- `Editor.edit(text, post)`: run the session loop on the given initial
buffer and input stream. -/
def edit (fuel : Nat) (maxlen : Int) (pre post input : List Char) :
    Option (Except PyError (List Char)) :=
  editLoop fuel maxlen { pre := pre, post := post } input

/-- The total buffer length `len(pre) + len(post)`. -/
def totalLen (s : EditState) : Nat := s.pre.length + s.post.length

/-! ## Helper lemmas -/

/-- One unfolding of a character-class loop. -/
theorem csLoop_succ (cls : List Char) (fuel : Nat) (buf : List Char)
    (next : Option Char) (input : List Char) :
    csLoop cls (fuel + 1) buf next input =
      if pyFind cls next ≥ 0 then
        csLoop cls fuel (buf ++ optToList next) (read1 input).1 (read1 input).2
      else some (buf, next, input) := rfl

/-- A character-class loop stops at a lookahead outside the class. -/
theorem csLoop_exit (cls : List Char) (fuel : Nat) (buf : List Char)
    (next : Option Char) (input : List Char) (h : ¬ pyFind cls next ≥ 0) :
    csLoop cls (fuel + 1) buf next input = some (buf, next, input) := by
  rw [csLoop_succ, if_neg h]

/-- On an exhausted stream a character-class loop never terminates: the
empty read is found in every class string at position 0, so the loop
consumes all fuel without progress. -/
theorem csLoop_none_nil (cls : List Char) (fuel : Nat) (buf : List Char) :
    csLoop cls fuel buf none [] = none := by
  induction fuel generalizing buf with
  | zero => rfl
  | succ n ih =>
    rw [csLoop_succ, if_pos (by simp [pyFind])]
    simp only [read1, optToList, List.append_nil]
    exact ih _

/-- The introducer check fails on any byte other than a left bracket and
`esc2str` returns the Python `None`. -/
theorem esc2str_not_bracket (fuel : Nat) (c : Char) (input : List Char)
    (hc : c ≠ '[') :
    esc2str fuel (c :: input) = some (.ok none, input) := by
  simp only [esc2str, read1]
  rw [if_pos (by simpa using hc)]

/-- After the introducer, `esc2str` runs the two class loops and the
final-byte check on the rest of the stream. -/
theorem esc2str_bracket (fuel : Nat) (input : List Char) :
    esc2str fuel ('[' :: input) =
      (csLoop CS_PARAMETER fuel [] (read1 input).1 (read1 input).2).bind (fun p1 =>
        (csLoop CS_INTERMEDIATE fuel p1.1 p1.2.1 p1.2.2).bind (fun p2 =>
          if pyFind CS_FINAL p2.2.1 ≥ 0 then
            some (.ok (some (p2.1 ++ optToList p2.2.1)), p2.2.2)
          else
            some (.error (.malformed p2.1), p2.2.2))) := by
  simp only [esc2str, read1]
  rw [if_neg (by simp)]

/-- The literal branch of `Key.__init__`: any first read other than ESC
(including the empty read at EOF) becomes the `char` field. -/
theorem read_lit (fuel : Nat) (input : List Char)
    (h : (read1 input).1 ≠ some ESC) :
    read fuel input =
      some (.ok { char := some (read1 input).1, cmd := none }, (read1 input).2) := by
  simp only [read]
  rw [if_pos h]

/-- The escape branch of `Key.__init__`. -/
theorem read_escb (fuel : Nat) (input : List Char)
    (h : (read1 input).1 = some ESC) :
    read fuel input =
      (parse_esc fuel (read1 input).2).map (fun pr =>
        (pr.1.map (fun cmd => { char := none, cmd := cmd }), pr.2)) := by
  simp only [read]
  rw [if_neg (by simp [h])]

/-- A successful dictionary lookup returns one of the stored values. -/
theorem dictGet_mem (l : List (List Char × Nat)) (key : List Char) (v : Nat)
    (h : dictGet l key = some v) : v ∈ l.map Prod.snd := by
  induction l with
  | nil => simp [dictGet] at h
  | cons p rest ih =>
    obtain ⟨k, w⟩ := p
    rw [dictGet] at h
    by_cases hk : k = key
    · rw [if_pos hk] at h
      injection h with h
      simp [h]
    · rw [if_neg hk] at h
      simpa using Or.inr (ih h)

/-- The command delivered by a successful `parse_esc` is either `None`
(UNKNOWN) or one of the values of the `SEQ` table. -/
theorem parse_esc_range (fuel : Nat) (input rest : List Char) (cmd : Option Nat)
    (h : parse_esc fuel input = some (.ok cmd, rest)) :
    cmd = none ∨ ∃ v, cmd = some v ∧ v ∈ SEQ.map Prod.snd := by
  unfold parse_esc at h
  rw [Option.map_eq_some'] at h
  obtain ⟨⟨res, rst⟩, -, hf⟩ := h
  cases res with
  | error e => simp [Except.map] at hf
  | ok seq =>
    simp only [Except.map, Prod.mk.injEq, Except.ok.injEq] at hf
    obtain ⟨hcmd, -⟩ := hf
    cases seq with
    | none => left; rw [← hcmd]; rfl
    | some body =>
      cases hd : dictGet SEQ body with
      | none => left; rw [← hcmd]; simp [pyOr, hd, UNKNOWN]
      | some v =>
        by_cases hv : v = 0
        · left; rw [← hcmd]; simp [pyOr, hd, hv, UNKNOWN]
        · right
          refine ⟨v, ?_, dictGet_mem _ _ _ hd⟩
          rw [← hcmd]
          simp [pyOr, hd, hv]

/-! ## Claims C1 to C5 -/

/-- C1 counterexample: the input stream whose first byte is ESC and whose
next byte is the letter X (not a left bracket) does not make the read
operation raise: `esc2str` returns `None` and the key decodes to a Key
with `cmd = UNKNOWN`, an ordinary successful result. -/
theorem c1_counterexample :
    read 10 ['\x1b', 'X'] = some (.ok { char := none, cmd := UNKNOWN }, []) := by
  rfl

/-- C1 (amended): ESC followed by a byte other than a left bracket does
not raise; `esc2str` returns `None` and the key decodes to UNKNOWN.  Only
a CSI sequence that reaches a byte lying outside the parameter,
intermediate and final character classes raises, and that error surfaces
to the caller of the read operation. -/
theorem c1_theorem (fuel : Nat) (c b : Char) (rest : List Char)
    (hc : c ≠ '[')
    (hp : pyFind CS_PARAMETER (some b) < 0)
    (hi : pyFind CS_INTERMEDIATE (some b) < 0)
    (hf : pyFind CS_FINAL (some b) < 0) :
    read fuel ('\x1b' :: c :: rest) =
      some (.ok { char := none, cmd := UNKNOWN }, rest) ∧
    read (fuel + 1) ('\x1b' :: '[' :: b :: rest) =
      some (.error (.malformed []), rest) := by
  constructor
  · rw [read_escb fuel ('\x1b' :: c :: rest) rfl]
    simp only [read1]
    unfold parse_esc
    rw [esc2str_not_bracket fuel c rest hc]
    rfl
  · rw [read_escb (fuel + 1) ('\x1b' :: '[' :: b :: rest) rfl]
    simp only [read1]
    unfold parse_esc
    rw [esc2str_bracket]
    simp only [read1]
    rw [csLoop_exit _ _ _ _ _ (by omega)]
    simp only [Option.some_bind]
    rw [csLoop_exit _ _ _ _ _ (by omega)]
    simp only [Option.some_bind]
    rw [if_neg (by omega)]
    rfl

/-- C1 witness: the amended theorem evaluated on the streams ESC-X and
ESC-bracket-BEL. -/
theorem c1_witness :
    read 5 ['\x1b', 'X'] = some (.ok { char := none, cmd := UNKNOWN }, []) ∧
    read 6 ['\x1b', '[', '\x07'] = some (.error (.malformed []), []) :=
  c1_theorem 5 'X' '\x07' [] (by decide) (by decide) (by decide) (by decide)

/-- C2 counterexample: the well-formed but unrecognized sequence
ESC-bracket-z decodes to a Key whose `char` and `cmd` fields are both
absent (both Python `None`), because `UNKNOWN` is itself `None`; the two
alternatives of the claimed tagged union are both missing. -/
theorem c2_counterexample :
    read 10 ['\x1b', '[', 'z'] = some (.ok { char := none, cmd := none }, []) := by
  rfl

/-- C2 (amended): a Key never has both fields present: a literal key has
`char` present and `cmd` absent, and when `cmd` is present it is one of
the twelve codes UP to CTRL_RIGHT.  But UNKNOWN is represented as the
absence of both fields (in the source `UNKNOWN = None`), so a key whose
decode is UNKNOWN has `char` and `cmd` both absent. -/
theorem c2_theorem (fuel : Nat) (input rest : List Char) (key : Key)
    (h : read fuel input = some (.ok key, rest)) :
    (key.char.isSome → key.cmd = none) ∧
    (∀ c, key.cmd = some c → key.char = none ∧
      c ∈ [UP, DOWN, RIGHT, LEFT, HOME, END, INSERT,
           DELETE, PAGE_UP, PAGE_DOWN, CTRL_LEFT, CTRL_RIGHT]) := by
  by_cases hesc : (read1 input).1 = some ESC
  · rw [read_escb fuel input hesc] at h
    rw [Option.map_eq_some'] at h
    obtain ⟨⟨res, rst⟩, hp, hf⟩ := h
    cases res with
    | error e => simp [Except.map] at hf
    | ok cmd =>
      simp only [Except.map, Prod.mk.injEq, Except.ok.injEq] at hf
      obtain ⟨hk, -⟩ := hf
      rw [← hk]
      refine ⟨by simp, ?_⟩
      intro c hc
      refine ⟨rfl, ?_⟩
      have hcc : cmd = some c := hc
      rcases parse_esc_range fuel _ _ _ hp with hu | ⟨v, hv, hmem⟩
      · rw [hu] at hcc; simp at hcc
      · rw [hv] at hcc
        injection hcc with hcc
        rw [← hcc]
        revert hmem
        simp [SEQ, UP, DOWN, RIGHT, LEFT, HOME, END, INSERT, DELETE,
              PAGE_UP, PAGE_DOWN, CTRL_LEFT, CTRL_RIGHT]
        omega
  · rw [read_lit fuel input hesc] at h
    simp only [Option.some.injEq, Prod.mk.injEq, Except.ok.injEq] at h
    obtain ⟨hk, -⟩ := h
    rw [← hk]
    refine ⟨fun _ => rfl, ?_⟩
    intro c hc
    simp at hc

/-- C2 witness: the amended theorem applied to the one-byte stream
holding the letter a. -/
theorem c2_witness : (Key.mk (some (some 'a')) none).cmd = none :=
  (c2_theorem 10 ['a'] [] (Key.mk (some (some 'a')) none) (by rfl)).1 (by decide)

/-- C3 counterexample: on an empty buffer, deleteForward still reports
one erased cell, and so does backspace — the claimed report of zero
erased cells for the empty case does not happen. -/
theorem c3_counterexample :
    (delete { pre := [], post := [] }).2 = [1] ∧
    (backspace { pre := [], post := [] }).2 = [1] := by
  constructor <;> rfl

/-- C3 (amended): deleteForward drops the first character of `post` (a
no-op on the buffer when `post` is empty) and backspace drops the last
character of `pre` (a no-op when `pre` is empty), but both always report
exactly one erased cell to the renderer, also in the empty no-op case. -/
theorem c3_theorem (s : EditState) :
    delete s = ({ s with post := s.post.drop 1 }, [1]) ∧
    backspace s = ({ s with pre := s.pre.dropLast }, [1]) := by
  obtain ⟨pre, post⟩ := s
  constructor
  · unfold delete
    cases post <;> simp
  · unfold backspace
    cases pre <;> simp

/-- C4: the sequence ESC-bracket-A decodes to UP, ESC-bracket-3-tilde to
DELETE, ESC-bracket-1-semicolon-5-C to CTRL_RIGHT, the single byte a to a
literal-character key holding a, and every structurally well-formed
sequence whose body is absent from the `SEQ` table decodes to UNKNOWN
with no error. -/
theorem c4_theorem (fuel : Nat) (input rest body : List Char)
    (hw : esc2str fuel input = some (.ok (some body), rest))
    (hu : dictGet SEQ body = none) :
    read fuel ('\x1b' :: input) = some (.ok { char := none, cmd := UNKNOWN }, rest) ∧
    read 10 ['\x1b', '[', 'A'] = some (.ok { char := none, cmd := some UP }, []) ∧
    read 10 ['\x1b', '[', '3', '~'] = some (.ok { char := none, cmd := some DELETE }, []) ∧
    read 10 ['\x1b', '[', '1', ';', '5', 'C'] =
      some (.ok { char := none, cmd := some CTRL_RIGHT }, []) ∧
    read 10 ['a'] = some (.ok { char := some (some 'a'), cmd := none }, []) := by
  refine ⟨?_, by rfl, by rfl, by rfl, by rfl⟩
  rw [read_escb fuel ('\x1b' :: input) rfl]
  simp only [read1]
  unfold parse_esc
  rw [hw]
  simp [pyOr, hu, UNKNOWN, Except.map]

/-- C4 witness: the general unknown-body clause evaluated on the
well-formed unrecognized sequence ESC-bracket-z. -/
theorem c4_witness :
    read 10 ('\x1b' :: ['[', 'z']) = some (.ok { char := none, cmd := UNKNOWN }, []) :=
  (c4_theorem 10 ['[', 'z'] [] ['z'] (by rfl) (by rfl)).1

/-- C5: when `maxlen` is nonnegative and the buffer is exactly full,
`handle_char` leaves the state unchanged and performs no redraw — a
silent no-op, not an error. -/
theorem c5_theorem (maxlen : Int) (s : EditState) (c : Char)
    (h0 : 0 ≤ maxlen) (hfull : (totalLen s : Int) = maxlen) :
    handle_char maxlen s c = (s, []) := by
  have hlen : ((s.pre ++ s.post).length : Int) = maxlen := by
    rw [List.length_append]
    push_cast
    unfold totalLen at hfull
    push_cast at hfull
    omega
  unfold handle_char
  rw [if_neg (by omega)]

/-- C5 witness: a two-character buffer with `maxlen = 2` ignores an
inserted character. -/
theorem c5_witness :
    handle_char 2 { pre := ['a'], post := ['b'] } 'x' =
      ({ pre := ['a'], post := ['b'] }, []) :=
  c5_theorem 2 { pre := ['a'], post := ['b'] } 'x' (by decide) (by decide)

/-! ## Length preservation of the editing primitives (for C6) -/

theorem totalLen_left (s : EditState) : totalLen (left s) = totalLen s := by
  unfold left
  split
  · rfl
  · rename_i h
    have hp : 0 < s.pre.length := List.length_pos.mpr h
    simp only [totalLen, List.length_dropLast, List.length_cons]
    omega

theorem totalLen_right (s : EditState) : totalLen (right s) = totalLen s := by
  unfold right
  split
  · rfl
  · rename_i h
    have hp : 0 < s.post.length := List.length_pos.mpr h
    simp only [totalLen, List.length_append, List.length_drop,
               List.length_singleton]
    omega

theorem totalLen_home (s : EditState) : totalLen (home s) = totalLen s := by
  simp [totalLen, home]

theorem totalLen_endKey (s : EditState) : totalLen (endKey s) = totalLen s := by
  simp [totalLen, endKey]

theorem totalLen_delete_le (s : EditState) :
    totalLen (delete s).1 ≤ totalLen s := by
  simp only [delete]
  split
  · simp only [totalLen, List.length_drop]
    omega
  · exact le_refl _

theorem totalLen_backspace_le (s : EditState) :
    totalLen (backspace s).1 ≤ totalLen s := by
  simp only [backspace]
  split
  · simp only [totalLen, List.length_dropLast]
    omega
  · exact le_refl _

theorem totalLen_kill_post_le (s : EditState) :
    totalLen (kill_post s).1 ≤ totalLen s := by
  simp [totalLen, kill_post]

theorem totalLen_delete_word_le (s : EditState) :
    totalLen (delete_word s).1 ≤ totalLen s := by
  simp only [delete_word]
  split
  · simp only [totalLen, List.length_take]
    omega
  · exact le_refl _

theorem totalLen_word_left_le (s : EditState) :
    totalLen (word_left s).1 ≤ totalLen s := by
  simp only [word_left]
  split
  · simp only [totalLen, List.length_take, List.length_append, List.length_drop]
    omega
  · exact le_refl _

theorem totalLen_word_right_le (s : EditState) :
    totalLen (word_right s).1 ≤ totalLen s := by
  simp only [word_right]
  split
  · simp only [totalLen, List.length_take, List.length_append, List.length_drop]
    omega
  · exact le_refl _

/-- C6: starting from any state within the bound (`maxlen ≥ 0`), every
primitive operation — insertion, the four cursor moves, the four
deletions and the two word motions — stays within the bound; only
insertion even consults `maxlen`. -/
theorem c6_theorem (maxlen : Int) (s : EditState) (c : Char)
    (h0 : 0 ≤ maxlen) (hinv : (totalLen s : Int) ≤ maxlen) :
    (totalLen (handle_char maxlen s c).1 : Int) ≤ maxlen ∧
    (totalLen (left s) : Int) ≤ maxlen ∧
    (totalLen (right s) : Int) ≤ maxlen ∧
    (totalLen (home s) : Int) ≤ maxlen ∧
    (totalLen (endKey s) : Int) ≤ maxlen ∧
    (totalLen (delete s).1 : Int) ≤ maxlen ∧
    (totalLen (backspace s).1 : Int) ≤ maxlen ∧
    (totalLen (kill_post s).1 : Int) ≤ maxlen ∧
    (totalLen (delete_word s).1 : Int) ≤ maxlen ∧
    (totalLen (word_left s).1 : Int) ≤ maxlen ∧
    (totalLen (word_right s).1 : Int) ≤ maxlen := by
  have hle : ∀ t : EditState, totalLen t ≤ totalLen s →
      (totalLen t : Int) ≤ maxlen := by
    intro t ht
    omega
  refine ⟨?_, hle _ (le_of_eq (totalLen_left s)),
    hle _ (le_of_eq (totalLen_right s)),
    hle _ (le_of_eq (totalLen_home s)),
    hle _ (le_of_eq (totalLen_endKey s)),
    hle _ (totalLen_delete_le s),
    hle _ (totalLen_backspace_le s),
    hle _ (totalLen_kill_post_le s),
    hle _ (totalLen_delete_word_le s),
    hle _ (totalLen_word_left_le s),
    hle _ (totalLen_word_right_le s)⟩
  simp only [handle_char]
  split
  · rename_i hcond
    simp only [totalLen, List.length_append, List.length_singleton]
    rcases hcond with hneg | hlt
    · omega
    · rw [List.length_append] at hlt
      unfold totalLen at hinv
      push_cast at hlt hinv ⊢
      omega
  · exact hinv

/-- C6 witness: the bound instantiated on a one-character buffer with
`maxlen = 1`. -/
theorem c6_witness :
    (totalLen (left { pre := ['a'], post := [] }) : Int) ≤ 1 :=
  (c6_theorem 1 { pre := ['a'], post := [] } 'x' (by decide) (by decide)).2.1

/-- C7: on ASCII buffers (where the embedded word class is exactly the
source's regex class): with more than one word boundary in `pre`,
deleteWordBack cuts `pre` at the second-to-last boundary, leaves `post`
unchanged, and reports the removed length as erased cells; with at most
one boundary it is a no-op with no redraw; and the session scenario:
editing the buffer holding the letters a, b, space, c, d and feeding
ctrl-W then newline returns the three characters a, b, space. -/
theorem c7_theorem (s : EditState) (hs : asciiOnly s.pre)
    (h : 1 < (boundaries s.pre).length) :
    delete_word s =
      ({ pre := s.pre.take (secondLastBoundary s.pre), post := s.post },
        [s.pre.length - secondLastBoundary s.pre]) ∧
    (∀ t : EditState, asciiOnly t.pre →
      (boundaries t.pre).length ≤ 1 → delete_word t = (t, [])) ∧
    edit 10 80 "ab cd".toList [] ['\x17', '\n'] = some (.ok "ab ".toList) := by
  refine ⟨?_, ?_, by rfl⟩
  · simp only [delete_word]
    rw [if_pos h]
  · intro t _ ht
    simp only [delete_word]
    rw [if_neg (by omega)]

/-- C7 witness: the cut at the second-to-last boundary on the buffer
holding a, b, space, c, d. -/
theorem c7_witness :
    delete_word { pre := "ab cd".toList, post := [] } =
      ({ pre := ("ab cd".toList).take (secondLastBoundary "ab cd".toList),
          post := [] },
        [("ab cd".toList).length - secondLastBoundary "ab cd".toList]) :=
  (c7_theorem { pre := "ab cd".toList, post := [] }
    (by unfold asciiOnly; decide) (by decide)).1

/-! ## Renderer output (for C8) -/

theorem digitChar_ne_ESC (d : Nat) : digitChar d ≠ ESC := by
  unfold digitChar
  split <;> decide

theorem natToCharsAux_no_ESC (fuel : Nat) : ∀ (n : Nat) (acc : List Char),
    ESC ∉ acc → ESC ∉ natToCharsAux fuel n acc := by
  induction fuel with
  | zero =>
    intro n acc h
    simpa [natToCharsAux] using h
  | succ f ih =>
    intro n acc h
    have hd : ESC ∉ digitChar (n % 10) :: acc := by
      simp only [List.mem_cons, not_or]
      exact ⟨(digitChar_ne_ESC (n % 10)).symm, h⟩
    rw [natToCharsAux]
    split
    · exact hd
    · exact ih _ _ hd

/-- The decimal rendering of the cursor-move count contains no escape
character. -/
theorem natToChars_no_ESC (n : Nat) : ESC ∉ natToChars n :=
  natToCharsAux_no_ESC (n + 1) n [] (by simp)

theorem count_cursorLeft (n : Nat) : (cursorLeft n).count ESC = 1 := by
  simp [cursorLeft, List.count_cons, List.count_append,
        List.count_eq_zero.mpr (natToChars_no_ESC n)]
  decide

/-- C8: one render step writes exactly the restore-cursor sequence, then
`pre`, then `post`, then `erase` spaces, then — exactly when
`len(post) + erase` is positive — one cursor-left sequence; counting
escape characters shows no other escape sequence is emitted (provided the
buffer itself contains no escape character). -/
theorem c8_theorem (s : EditState) (erase : Nat)
    (hpre : ESC ∉ s.pre) (hpost : ESC ∉ s.post) :
    showBuf s erase =
      ESC_RESTORE_CURSOR ++ s.pre ++ s.post ++ List.replicate erase ' ' ++
        (if 0 < s.post.length + erase then cursorLeft (s.post.length + erase)
         else []) ∧
    (showBuf s erase).count ESC =
      1 + (if 0 < s.post.length + erase then 1 else 0) := by
  refine ⟨rfl, ?_⟩
  unfold showBuf
  rw [List.count_append, List.count_append, List.count_append,
      List.count_append]
  rw [List.count_eq_zero.mpr hpre, List.count_eq_zero.mpr hpost]
  have hrep : ESC ∉ List.replicate erase ' ' := by
    simp only [List.mem_replicate, not_and]
    intro _
    decide
  rw [List.count_eq_zero.mpr hrep]
  have h1 : (ESC_RESTORE_CURSOR).count ESC = 1 := by decide
  rw [h1]
  split
  · rw [count_cursorLeft]
  · simp

/-- C8 witness: the escape-character count for a concrete render with a
nonempty tail. -/
theorem c8_witness :
    (showBuf { pre := ['a'], post := ['b'] } 1).count ESC =
      1 + (if 0 < ({ pre := ['a'], post := ['b'] } : EditState).post.length + 1
           then 1 else 0) :=
  (c8_theorem { pre := ['a'], post := ['b'] } 1 (by decide) (by decide)).2

/-- C9: constructing an Editor with `max = 0` does not give a
zero-capacity buffer: `0` is falsy, so `maxlen` becomes the
terminal-width default `columns - 1`; for any terminal of width at least
2 that default is positive and an insert on the empty buffer appends the
character. -/
theorem c9_theorem (columns : Int) (c : Char) (h : 2 ≤ columns) :
    initMaxlen (some 0) columns = columns - 1 ∧
    1 ≤ initMaxlen (some 0) columns ∧
    handle_char (initMaxlen (some 0) columns) { pre := [], post := [] } c =
      ({ pre := [c], post := [] }, [0]) := by
  have hm : initMaxlen (some 0) columns = columns - 1 := by
    simp [initMaxlen]
  refine ⟨hm, by omega, ?_⟩
  unfold handle_char
  rw [if_pos (Or.inr (by rw [hm]; simp; omega))]
  simp

/-- C9 witness: a terminal of 80 columns. -/
theorem c9_witness :
    initMaxlen (some 0) 80 = 80 - 1 ∧
    1 ≤ initMaxlen (some 0) 80 ∧
    handle_char (initMaxlen (some 0) 80) { pre := [], post := [] } 'x' =
      ({ pre := ['x'], post := [] }, [0]) :=
  c9_theorem 80 'x' (by decide)

/-- C10: when the stream ends right after the CSI introducer, the
parameter-run loop of `esc2str` accepts the empty read (`find` of the
empty string succeeds at 0), appends nothing and reads again forever:
at every fuel the decoder yields no result — the read operation neither
returns a Key nor raises an error. -/
theorem c10_theorem (fuel : Nat) :
    esc2str fuel ['['] = none ∧
    read fuel ['\x1b', '['] = none ∧
    pyFind CS_PARAMETER none = 0 := by
  have he : esc2str fuel ['['] = none := by
    rw [esc2str_bracket]
    simp only [read1]
    rw [csLoop_none_nil]
    rfl
  refine ⟨he, ?_, rfl⟩
  rw [read_escb fuel ['\x1b', '['] rfl]
  simp only [read1]
  unfold parse_esc
  rw [he]
  rfl

end LineEdit
